import Mathlib

/-!
Shallow embedding of the RAG chat service (guduchango/api-rag-chat).

The canonical pipeline lives in `src/backend/src/core/rag_service.py`
(LLM intent classification + history-aware retrieval), with the legacy
document-conversion variant in `src/src/core/rag_service.py`
(`process_csv_to_documents`).  External capabilities (the LLM, the
embedding model, `json.loads`, Python's `float`) are modelled as oracle
parameters or small concrete models; everything the repository itself
computes is translated directly from the Python source.
-/

/-- A Python runtime value, as far as the service inspects one:
`json.loads` may produce a dict, a string, a list, or some other value.
Dicts are association lists (first binding wins for `.get`). -/
inductive PyVal where
  | dict (fields : List (String × PyVal))
  | strv (s : String)
  | list (elems : List PyVal)
  | other
deriving Repr

/-- `d.get(key, default)` on a Python dict, over the association-list model. -/
def pyDictGet (fields : List (String × PyVal)) (key : String) (default : PyVal) : PyVal :=
  match fields.lookup key with
  | some v => v
  | none => default

/-- Result of Python `float(...)` when it succeeds: either NaN (from the
string "nan", which is how `pandas.DataFrame.astype(str)` renders a
missing cell) or an ordinary numeric value, modelled as a rational. -/
inductive PyFloat where
  | nan
  | val (q : ℚ)
deriving DecidableEq, Repr

/-- Python truthiness of a float: `0.0` is falsy, NaN and every other
value are truthy. -/
def pyFloatTruthy : PyFloat → Bool
  | .nan => true
  | .val q => q != 0

/-- Digits of a string interpreted as a natural number (helper for the
`float(...)` model). -/
def digitsToNat (cs : List Char) : Nat :=
  cs.foldl (fun acc c => acc * 10 + (c.toNat - '0'.toNat)) 0

/-- Python `str.strip()`: drop whitespace from both ends. -/
def pyStrip (s : String) : String :=
  ⟨((s.data.dropWhile Char.isWhitespace).reverse.dropWhile Char.isWhitespace).reverse⟩

/-- Code point after ASCII lower-casing (for case-insensitive spelling
checks such as `float("NaN")`). -/
def charLowerNat (c : Char) : Nat :=
  if 65 ≤ c.toNat ∧ c.toNat ≤ 90 then c.toNat + 32 else c.toNat

/-- Python `str.split(c)` over the character list (always non-empty). -/
def splitOnChar (c : Char) : List Char → List (List Char)
  | [] => [[]]
  | x :: xs =>
      match splitOnChar c xs with
      | [] => [[]]
      | y :: ys => if x = c then [] :: y :: ys else (x :: y) :: ys

/-- An unsigned decimal literal (`ddd`, `ddd.ddd`, `ddd.`, `.ddd`) as a
rational; `none` when `float(...)` would raise `ValueError`. -/
def parseUnsigned (cs : List Char) : Option ℚ :=
  match splitOnChar '.' cs with
  | [w] =>
      if w ≠ [] ∧ w.all Char.isDigit then some (digitsToNat w : ℚ) else none
  | [w, f] =>
      if (w ≠ [] ∨ f ≠ []) ∧ w.all Char.isDigit ∧ f.all Char.isDigit then
        some ((digitsToNat w : ℚ) + (digitsToNat f : ℚ) / (10 : ℚ) ^ f.length)
      else none
  | _ => none

/-- Model of Python's builtin `float : str -> float` on the string forms
the ingestion data contains: `none` exactly when `float(...)` raises
`ValueError`.  Covers optionally signed decimal literals and the "nan"
spelling produced by `astype(str)` on missing cells; other special forms
(exponents, infinities) are outside the data this service parses. -/
def pyFloatOfString (s : String) : Option PyFloat :=
  let t := (pyStrip s).data
  if t.map charLowerNat = "nan".data.map charLowerNat then some .nan
  else
    match t with
    | '-' :: rest => (parseUnsigned rest).map (fun q => .val (-q))
    | '+' :: rest => (parseUnsigned rest).map (fun q => .val q)
    | _ => (parseUnsigned t).map (fun q => .val q)

/-- Python `str.replace(pat, rep)`: replace all non-overlapping
occurrences left to right (patterns here are never empty).  Fuel-indexed
structural recursion; the initial fuel `s.length` always suffices. -/
def replaceAux (pat rep : List Char) : Nat → List Char → List Char
  | 0, s => s
  | _ + 1, [] => []
  | fuel + 1, x :: xs =>
      if pat ≠ [] ∧ (x :: xs).take pat.length = pat then
        rep ++ replaceAux pat rep fuel ((x :: xs).drop pat.length)
      else x :: replaceAux pat rep fuel xs

/-- Python `str.replace` on strings. -/
def pyReplace (s pat rep : String) : String :=
  ⟨replaceAux pat.data rep.data s.data.length s.data⟩

/-- Rendering of a stored float back to text, used when building document
page content (`str(product.variants[0].retail_price)`).  The exact digit
string of Python's float repr is not observable by any claim; integral
values render as Python does ("899.0"), NaN as "nan". -/
def pyFloatStr : PyFloat → String
  | .nan => "nan"
  | .val q => if q.den = 1 then toString q.num ++ ".0" else toString q.num ++ "e/" ++ toString q.den

/-- Outcome of invoking the LLM chain: the raw text it produced, or an
exception escaping `chain.invoke` (model unavailable, timeout, ...). -/
inductive LLMOutcome where
  | ok (s : String)
  | raise
deriving DecidableEq, Repr

/-- The code-fence cleanup in `classify_intent`:
`llm_output.strip().replace("```json", "").replace("```", "").strip()`. -/
def cleanedOutput (s : String) : String :=
  pyStrip (pyReplace (pyReplace (pyStrip s) "```json" "") "```" "")

/-- `classify_intent` from `src/backend/src/core/rag_service.py`.

* `llmReady` — whether the global `llm` is non-None;
* `invokeChain` — the classification capability: question ↦ raw LLM text
  or an exception;
* `jloads` — oracle for `json.loads`, `none` meaning `JSONDecodeError`.

Every Python exception path (`not llm`, `chain.invoke` raising,
`json.loads` failing, `.get` on a non-dict raising `AttributeError`) is a
value branch here, so the embedding is total: the function never raises.
On a parsed dict the result is `response_json.get("intent", "product_query")`. -/
def classify_intent (llmReady : Bool) (invokeChain : String → LLMOutcome)
    (jloads : String → Option PyVal) (question : String) : PyVal :=
  if !llmReady then .strv "product_query"
  else
    match invokeChain question with
    | .raise => .strv "product_query"
    | .ok llm_output =>
        match jloads (cleanedOutput llm_output) with
        | none => .strv "product_query"
        | some (.dict fields) => pyDictGet fields "intent" (.strv "product_query")
        | some _ => .strv "product_query"

/-- `jloads` produced no dict carrying an "intent" field: the parse
failed, or parsed to a non-dict, or to a dict without that key. -/
def noIntentField (r : Option PyVal) : Prop :=
  ∀ fields, r = some (.dict fields) → fields.lookup "intent" = none

/-- One conversation turn: the user question and the produced answer
(the `{"input": ...}` / `{"output": ...}` pair given to `save_context`). -/
structure Turn where
  input : String
  output : String
deriving DecidableEq, Repr

/-- The module-level `conversation_memory_store` dict: session id ↦ the
full turn sequence held by that session's `ConversationBufferWindowMemory`
(`chat_memory` retains every turn; the window applies on load).
Association list in insertion order, like a Python dict. -/
abbrev MemStore := List (String × List Turn)

/-- `get_or_create_memory_for_session`: returns the (possibly extended)
store and the turns of the session's memory object. -/
def get_or_create_memory_for_session (store : MemStore) (session_id : String) :
    MemStore × List Turn :=
  match store.lookup session_id with
  | some turns => (store, turns)
  | none => (store ++ [(session_id, [])], [])

/-- The fixed window of `ConversationBufferWindowMemory(k=10, ...)` in
`src/backend/src/core/rag_service.py`. -/
def windowK : Nat := 10

/-- `load_memory_variables`: the window returns the last `k` turns
(`buffer[-2k:]` at message level, i.e. the last `k` (human, ai) pairs). -/
def loadWindow (k : Nat) (turns : List Turn) : List Turn :=
  turns.drop (turns.length - k)

/-- `memory.save_context({"input": q}, {"output": a})`: appends one turn
to the named session's memory, leaving every other session unchanged. -/
def save_context (store : MemStore) (session_id : String) (t : Turn) : MemStore :=
  store.map (fun p => if p.1 = session_id then (p.1, p.2 ++ [t]) else p)

/-- A LangChain `Document` as built by `create_documents_from_db`:
page content plus the metadata record. -/
structure Doc where
  page_content : String
  product_id : Nat
  name : String
  brand : String
  price : String
  url : String
  image_url : String
deriving DecidableEq, Repr

/-- The black-box capabilities consumed by `get_rag_answer`:
similarity search (`vector_store.as_retriever(search_kwargs={"k": k})`),
the history-aware question reformulation, and answer synthesis
(`create_stuff_documents_chain`). -/
structure RagDeps where
  retrieve : Nat → String → List Doc
  contextualize : List Turn → String → String
  generate : List Doc → List Turn → String → String

/-- `"\n".join(f"{msg.__class__.__name__}: {msg.content}" for msg in history)`
over the (HumanMessage, AIMessage) pairs of the loaded history. -/
def formatMessages (turns : List Turn) : String :=
  String.intercalate "\n"
    ((turns.map (fun t => ["HumanMessage: " ++ t.input, "AIMessage: " ++ t.output])).flatten)

/-- Python `sep.join(items)`. -/
def joinSep (sep : String) : List String → String
  | [] => ""
  | [x] => x
  | x :: xs => x ++ (sep ++ joinSep sep xs)

/-- The `{"answer": ..., "prompt": ...}` dict returned by `get_rag_answer`. -/
structure RagResult where
  answer : String
  prompt : String
deriving DecidableEq, Repr

/-- `get_rag_answer` from `src/backend/src/core/rag_service.py`.

`storeReady` / `llmReady` are the non-None-ness of the `vector_store` /
`llm` globals.  `create_history_aware_retriever` invokes the retriever on
the question itself when the chat history is empty, and on the LLM
reformulation of the question otherwise; `create_retrieval_chain` returns
the retrieved `context`, the pass-through `chat_history`, and the
generated `answer`.  The new turn is saved only after generation, using
the generated answer. -/
def get_rag_answer (storeReady llmReady : Bool) (deps : RagDeps)
    (store : MemStore) (session_id question : String) (k : Nat) :
    RagResult × MemStore :=
  if !storeReady || !llmReady then
    (⟨"I'm sorry, but my knowledge base is currently unavailable.",
      "Error: Not initialized."⟩, store)
  else
    let s₁ := get_or_create_memory_for_session store session_id
    let chat_history := loadWindow windowK s₁.2
    let query := if chat_history.isEmpty then question
                 else deps.contextualize chat_history question
    let context := deps.retrieve k query
    let answer := deps.generate context chat_history question
    let s₂ := save_context s₁.1 session_id ⟨question, answer⟩
    let formatted_history := formatMessages chat_history
    let retrieved_docs := joinSep "\n---\n" (context.map (·.page_content))
    let debug_prompt :=
      "--- Chat History Sent to Prompt ---\n" ++ formatted_history ++
      "\n\n--- Retrieved Context ---\n" ++ retrieved_docs
    (⟨answer, debug_prompt⟩, s₂)

/-- `CHITCHAT_RESPONSES` from `src/src/core/config.py`: intent key ↦ the
fixed `"response"` text. -/
def CHITCHAT_RESPONSES : List (String × String) :=
  [("greeting", "Hello! I am your shopping assistant. What product are you looking for today?"),
   ("thanks", "You're welcome! If you need anything else, feel free to ask."),
   ("goodbye", "Goodbye! Have a great day."),
   ("identity", "I am a shopping assistant powered by Google's AI. I can help you find products from the store catalog.")]

/-- The response model of the chat route. -/
structure QueryResponse where
  answer : String
  debug_prompt : Option String
deriving DecidableEq, Repr

/-- Result of the chat route: a response, or an `HTTPException`. -/
inductive ChatOutcome where
  | ok (resp : QueryResponse)
  | httpError (status : Nat) (detail : String)
deriving DecidableEq, Repr

/-- `chat_endpoint` from `src/backend/src/api/router.py`: classify the
intent, short-circuit chitchat (`if intent in CHITCHAT_RESPONSES`), check
vector-store readiness (503 otherwise), else run the RAG chain.  The
final component records whether `get_rag_answer` was invoked — retrieval
and answer generation happen only inside it. -/
def chat_endpoint (storeReady llmReady : Bool) (invokeChain : String → LLMOutcome)
    (jloads : String → Option PyVal) (deps : RagDeps) (store : MemStore)
    (session_id question : String) (k : Nat) :
    ChatOutcome × MemStore × Bool :=
  let intent := classify_intent llmReady invokeChain jloads question
  let canned := match intent with
    | .strv s => CHITCHAT_RESPONSES.lookup s
    | _ => none
  match canned with
  | some response_text => (.ok ⟨response_text, none⟩, store, false)
  | none =>
      if !storeReady then
        (.httpError 503 "The vector database is not ready.", store, false)
      else
        let r := get_rag_answer storeReady llmReady deps store session_id question k
        (.ok ⟨r.1.answer, some r.1.prompt⟩, r.2, true)

/-- Lexicographic order on code points, the order pandas sorts string
group keys by. -/
def lexLe : List Char → List Char → Bool
  | [], _ => true
  | _ :: _, [] => false
  | a :: as, b :: bs =>
      if a.toNat < b.toNat then true
      else if b.toNat < a.toNat then false
      else lexLe as bs

/-- Stable insertion of a key into a sorted key list. -/
def insertSorted (x : String) : List String → List String
  | [] => [x]
  | y :: ys => if lexLe x.data y.data then x :: y :: ys else y :: insertSorted x ys

/-- Insertion sort on keys (executable stand-in for pandas' key sort). -/
def sortKeys : List String → List String
  | [] => []
  | x :: xs => insertSorted x (sortKeys xs)

/-- A row of the structured ingestion CSV after
`pd.read_csv(csv_path).astype(str)`: every named cell is a string (a
missing cell renders as "nan").  The price columns are `Option` because
`row.get("retail_price", 0.0)` distinguishes a column absent from the
CSV (`none`, yielding the `0.0` default) from a present string cell. -/
structure CsvRow where
  product_id : String
  product_name : String
  category : String
  description : String
  brand : String
  product_url : String
  image_url : String
  retail_price : Option String
  discounted_price : Option String
deriving DecidableEq, Repr, Inhabited

/-- `Product` row of the relational store (`src/src/models/db_models.py`),
with the sequence-assigned primary key. -/
structure ProductRec where
  id : Nat
  uniq_id : String
  name : String
  category_tree : String
  description : String
  brand : String
  product_url : String
  image_urls : List String
deriving DecidableEq, Repr

/-- `ProductVariant` row of the relational store. -/
structure ProductVariant where
  product_id : Nat
  retail_price : PyFloat
  discounted_price : PyFloat
  stock : Nat
deriving DecidableEq, Repr

/-- The committed relational database: products, variants, and the next
primary-key value the sequence will assign on flush. -/
structure RelStore where
  products : List ProductRec
  variants : List ProductVariant
  nextId : Nat
deriving DecidableEq, Repr

/-- The distinct group keys of `df.groupby("product_id")`, in pandas'
sorted order. -/
def csvKeys (csv : List CsvRow) : List String :=
  sortKeys (csv.map (·.product_id)).dedup

/-- The rows of one group, in source order. -/
def groupRows (csv : List CsvRow) (key : String) : List CsvRow :=
  csv.filter (fun r => r.product_id == key)

/-- `session.query(Product).filter_by(uniq_id=product_id).first()` is
non-None. -/
def existsUniqId (st : RelStore) (key : String) : Bool :=
  st.products.any (fun p => p.uniq_id == key)

/-- The group keys that are not yet in the product store — the groups
the ingestion loop does not skip. -/
def newKeys (st : RelStore) (csv : List CsvRow) : List String :=
  (csvKeys csv).filter (fun k => !existsUniqId st k)

/-- The `Product(...)` constructed for one group: fields from the
group's first row (`group.iloc[0]`), image URLs collected in order
across the whole group (`group["image_url"].tolist()`).  Groups produced
by `groupby` are never empty, so the `headD` default is unreachable. -/
def mkProduct (pid : Nat) (key : String) (group : List CsvRow) : ProductRec :=
  let first_row := group.headD default
  { id := pid
    uniq_id := key
    name := first_row.product_name
    category_tree := first_row.category
    description := first_row.description
    brand := first_row.brand
    product_url := first_row.product_url
    image_urls := group.map (·.image_url) }

/-- `float(row.get("retail_price", 0.0))`: the `0.0` default applies
only when the column is absent; a present cell goes through `float(...)`,
which raises (`none`) on an unparseable string. -/
def priceOf : Option String → Option PyFloat
  | none => some (.val 0)
  | some s => pyFloatOfString s

/-- The `ProductVariant(...)` built from one row; `none` when `float(...)`
raises on a price cell. -/
def mkVariant (pid : Nat) (row : CsvRow) : Option ProductVariant :=
  match priceOf row.retail_price, priceOf row.discounted_price with
  | some rp, some dp => some ⟨pid, rp, dp, 100⟩
  | _, _ => none

/-- The variants of one group, one per row; `none` as soon as any row's
price fails to parse (the exception aborts the loop). -/
def variantsFor (pid : Nat) : List CsvRow → Option (List ProductVariant)
  | [] => some []
  | r :: rs =>
      match mkVariant pid r, variantsFor pid rs with
      | some v, some vs => some (v :: vs)
      | _, _ => none

/-- The ingestion loop over the non-skipped groups: builds the pending
products and variants and threads the id sequence.  `none` when any
processed row raises; the surrounding `except` then rolls the whole
batch back, so the abort point within the loop is not observable. -/
def buildBatch (csv : List CsvRow) (nid : Nat) :
    List String → Option (List ProductRec × List ProductVariant × Nat)
  | [] => some ([], [], nid)
  | key :: keys =>
      let group := groupRows csv key
      match variantsFor nid group, buildBatch csv (nid + 1) keys with
      | some vs, some (ps, vss, nid') =>
          some (mkProduct nid key group :: ps, vs ++ vss, nid')
      | _, _ => none

/-- The variants belonging to a product, as the hydrating
`joinedload(Product.variants)` query returns them. -/
def variantsOf (st : RelStore) (pid : Nat) : List ProductVariant :=
  st.variants.filter (fun v => v.product_id == pid)

/-- The Document built from one hydrated product in
`create_documents_from_db`: price is `str(variants[0].retail_price or "N/A")`
(so a falsy `0.0` price also renders "N/A"), image from the first URL. -/
def documentOf (p : ProductRec) (vs : List ProductVariant) : Doc :=
  let price := match vs.head? with
    | none => "N/A"
    | some v => if pyFloatTruthy v.retail_price then pyFloatStr v.retail_price else "N/A"
  { page_content := "Product: " ++ p.name ++ ". Brand: " ++ p.brand ++
      ". Category: " ++ p.category_tree ++ ". Price: $" ++ price ++
      ". Description: " ++ p.description
    product_id := p.id
    name := p.name
    brand := p.brand
    price := price
    url := p.product_url
    image_url := p.image_urls.headD "#" }

/-- `create_documents_from_db` over hydrated (product, variants) pairs. -/
def create_documents_from_db (prods : List (ProductRec × List ProductVariant)) : List Doc :=
  prods.map (fun pv => documentOf pv.1 pv.2)

/-- Externally injected failures of the durable stores:
* `atCommit` — the relational `session.commit()` raises;
* `atUpsert` — `PGVector.from_documents` raises before it touches the
  collection (e.g. the embedding call fails), so the collection is
  untouched;
* `atUpsertInsert` — `PGVector.from_documents` raises after its
  `pre_delete_collection=True` step has already dropped the collection,
  while inserting the new documents: the collection is left wiped. -/
inductive IngestFail where
  | nofail
  | atCommit
  | atUpsert
  | atUpsertInsert
deriving DecidableEq, Repr

/-- Final state of one ingestion call: the relational store, the vector
collection, and the number of newly committed products (`len(new_products)`,
0 when nothing was committed). -/
structure IngestOutcome where
  rel : RelStore
  docs : List Doc
  newCount : Nat
deriving DecidableEq, Repr

/-- `ingest_data_in_background` from `src/backend/src/core/rag_service.py`,
for the read outcomes its `try/except FileNotFoundError` handles.

* `ready` — `embeddings_model` and `SessionLocal` are both set;
* `csv` — `some rows` when `pd.read_csv(csv_path).astype(str)` returns,
  `none` for the caught `FileNotFoundError`.  A read that raises any
  other error (empty or malformed file) never reaches this body and is
  modelled at the task boundary by `run_ingest_task` below;
* `fail` — injected store failure.

Groups are skipped when their id already exists; the batch is committed
in one transaction (any exception up to and including the commit rolls
everything back); when new products exist, their documents are rebuilt
from a hydrating query and
`PGVector.from_documents(..., pre_delete_collection=True)` replaces the
whole collection with exactly those documents.  A failure there occurs
after the commit: the rollback on the fresh session is a no-op, so the
committed batch stays; the collection is untouched when the upsert
raises before reaching it (`atUpsert`) and left wiped when it raises
after the pre-delete, during insert (`atUpsertInsert`). -/
def ingest_data_in_background (ready : Bool) (csv : Option (List CsvRow))
    (fail : IngestFail) (st : RelStore) (docStore : List Doc) : IngestOutcome :=
  if !ready then ⟨st, docStore, 0⟩
  else match csv with
  | none => ⟨st, docStore, 0⟩
  | some rows =>
      match buildBatch rows st.nextId (newKeys st rows) with
      | none => ⟨st, docStore, 0⟩
      | some (ps, vs, nid') =>
          match fail with
          | .atCommit => ⟨st, docStore, 0⟩
          | _ =>
              let st' : RelStore := ⟨st.products ++ ps, st.variants ++ vs, nid'⟩
              if ps.isEmpty then ⟨st', docStore, ps.length⟩
              else
                let hydrated := ps.map (fun p => (p, variantsOf st' p.id))
                let documents := create_documents_from_db hydrated
                if documents.isEmpty then ⟨st', docStore, ps.length⟩
                else match fail with
                  | .atUpsert => ⟨st', docStore, ps.length⟩
                  | .atUpsertInsert => ⟨st', [], ps.length⟩
                  | _ => ⟨st', documents, ps.length⟩

/-- The three outcomes of `pd.read_csv(csv_path).astype(str)` at the top
of the pipeline: rows, a `FileNotFoundError` (the only error the
surrounding `try/except` catches), or some other read error such as
`pandas.errors.EmptyDataError` / `ParserError` on an empty or malformed
file, which nothing in the function catches. -/
inductive CsvRead where
  | ok (rows : List CsvRow)
  | fileMissing
  | readRaises
deriving Repr

/-- How one run of the background task ends: a normal return with the
final state, or an uncaught exception escaping the pipeline boundary —
which can only happen during the read, before any store is accessed, so
the escaping run leaves both stores exactly as it found them. -/
inductive TaskOutcome where
  | returns (out : IngestOutcome)
  | escapes (rel : RelStore) (docs : List Doc)
deriving Repr

/-- The whole background-task call at its boundary: the readiness guard,
then the read with its three outcomes.  Only `FileNotFoundError` is
caught (log and return); any other read error propagates out of
`ingest_data_in_background` uncaught. -/
def run_ingest_task (ready : Bool) (read : CsvRead) (fail : IngestFail)
    (st : RelStore) (docStore : List Doc) : TaskOutcome :=
  if !ready then .returns ⟨st, docStore, 0⟩
  else match read with
  | .readRaises => .escapes st docStore
  | .fileMissing => .returns (ingest_data_in_background true none fail st docStore)
  | .ok rows => .returns (ingest_data_in_background true (some rows) fail st docStore)

/-- Specification-side recursion equal (on success) to the product list
the ingestion loop builds: one product per non-skipped group key, ids
assigned sequentially. -/
def buildProducts (csv : List CsvRow) (nid : Nat) : List String → List ProductRec
  | [] => []
  | key :: keys => mkProduct nid key (groupRows csv key) :: buildProducts csv (nid + 1) keys

/-- The variant one row yields when both its price cells parse. -/
def rowVariant (pid : Nat) (r : CsvRow) : ProductVariant :=
  ⟨pid, (priceOf r.retail_price).getD .nan, (priceOf r.discounted_price).getD .nan, 100⟩

/-- Specification-side recursion equal (on success) to the variant list
the ingestion loop builds: one variant per row of each non-skipped group. -/
def buildVariantsSpec (csv : List CsvRow) (nid : Nat) : List String → List ProductVariant
  | [] => []
  | key :: keys =>
      (groupRows csv key).map (rowVariant nid) ++ buildVariantsSpec csv (nid + 1) keys

/-- Both price cells of a row would survive `float(...)`. -/
def rowParses (r : CsvRow) : Prop :=
  (priceOf r.retail_price).isSome ∧ (priceOf r.discounted_price).isSome

instance (r : CsvRow) : Decidable (rowParses r) := by
  unfold rowParses
  infer_instance

/-- The external product ids currently in the relational store. -/
def uniqIds (st : RelStore) : List String :=
  st.products.map (·.uniq_id)

/-- The product keys of the documents in the vector collection. -/
def docProductIds (docs : List Doc) : List Nat :=
  docs.map (·.product_id)

/-- `small` occurs as a contiguous substring of `big`. -/
def strHas (big small : String) : Prop :=
  ∃ u v, big.data = u ++ (small.data ++ v)

/-- A row of the raw CSV as read by the legacy
`process_csv_to_documents` (`src/src/core/rag_service.py`): here there
is no `astype(str)`, so a missing cell is a genuine NaN, modelled as
`none`.  Present cells are given in their `str(...)` rendering. -/
structure LegacyRow where
  product_name : Option String
  description : Option String
  brand : Option String
  product_category_tree : Option String
  retail_price : Option String
  product_url : Option String
  image : Option String
deriving DecidableEq, Repr

/-- A Document built by the legacy converter; `image_url` is whatever
Python value ended up in the metadata (the parsed JSON list's first
element, or the "#" default). -/
structure LegacyDoc where
  page_content : String
  name : String
  brand : String
  price : String
  url : String
  image_url : PyVal
deriving Repr

/-- `df.dropna(subset=["product_name", "description"])` keeps a row iff
both fields are present. -/
def legacyKeep (r : LegacyRow) : Bool :=
  r.product_name.isSome && r.description.isSome

/-- `df.fillna({"brand": "Unknown"})` on one row. -/
def legacyFill (r : LegacyRow) : LegacyRow :=
  { r with brand := some (r.brand.getD "Unknown") }

/-- Python `str.strip(chars)`: remove any of the given characters from
both ends. -/
def stripChars (cs : List Char) (s : String) : String :=
  ⟨((s.data.dropWhile (cs.contains ·)).reverse.dropWhile (cs.contains ·)).reverse⟩

/-- `str(row.get("product_category_tree", "General")).strip('[]\x22').replace(">>", ">")`. -/
def legacyCategory (r : LegacyRow) : String :=
  pyReplace (stripChars ['[', ']', '"'] (r.product_category_tree.getD "General")) ">>" ">"

/-- The image-metadata extraction: `json.loads` the cell (when present),
take the first element when that yields a non-empty list, otherwise keep
the "#" default (also on any parse error). -/
def legacyImage (jloads : String → Option PyVal) (r : LegacyRow) : PyVal :=
  match r.image with
  | none => .strv "#"
  | some s =>
      match jloads s with
      | some (.list (x :: _)) => x
      | _ => .strv "#"

/-- The Document built from one (kept, brand-filled) row.  Rows reaching
this point always carry `product_name` and `description` (the dropna
filter ran first), so the `getD` defaults are unreachable. -/
def mkLegacyDoc (jloads : String → Option PyVal) (r : LegacyRow) : LegacyDoc :=
  let name := r.product_name.getD ""
  let brand := r.brand.getD ""
  { page_content := "Product: " ++ name ++ ". Brand: " ++ brand ++
      ". Category: " ++ legacyCategory r ++ ". Description: " ++ r.description.getD ""
    name := name
    brand := brand
    price := r.retail_price.getD "N/A"
    url := r.product_url.getD "#"
    image_url := legacyImage jloads r }

/-- `process_csv_to_documents` from `src/src/core/rag_service.py`:
drop rows missing `product_name` or `description`, fill missing brand
with "Unknown", build one Document per surviving row.  A missing file
yields the empty list. -/
def process_csv_to_documents (jloads : String → Option PyVal)
    (csv : Option (List LegacyRow)) : List LegacyDoc :=
  match csv with
  | none => []
  | some rows => ((rows.filter legacyKeep).map legacyFill).map (mkLegacyDoc jloads)

/-! ## Helper lemmas -/

theorem save_context_foldl_single (sid : String) (acc : List Turn) (ts : List Turn) :
    ts.foldl (fun st t => save_context st sid t) [(sid, acc)] = [(sid, acc ++ ts)] := by
  induction ts generalizing acc with
  | nil => simp
  | cons t ts ih =>
      have h1 : save_context [(sid, acc)] sid t = [(sid, acc ++ [t])] := by
        simp [save_context]
      rw [List.foldl_cons, h1, ih]
      simp

theorem save_context_cons (a : String) (b : List Turn) (st : MemStore)
    (sid : String) (t : Turn) :
    save_context ((a, b) :: st) sid t =
      (if a = sid then (a, b ++ [t]) else (a, b)) :: save_context st sid t := rfl

theorem mem_lookup_cons (k : String) (v : List Turn) (l : MemStore) (q : String) :
    (((k, v) :: l) : MemStore).lookup q = if q = k then some v else l.lookup q := by
  by_cases h : q = k
  · have hb : (q == k) = true := by simpa using h
    simp [List.lookup, hb, h]
  · have hb : (q == k) = false := by simpa using h
    simp [List.lookup, hb, h]

theorem lookup_save_context_self (st : MemStore) (sid : String) (t : Turn) :
    (save_context st sid t).lookup sid = (st.lookup sid).map (fun l => l ++ [t]) := by
  induction st with
  | nil => rfl
  | cons p st ih =>
      obtain ⟨a, b⟩ := p
      rw [save_context_cons]
      by_cases h : a = sid
      · subst h
        rw [if_pos rfl, mem_lookup_cons, mem_lookup_cons, if_pos rfl, if_pos rfl]
        rfl
      · have h2 : sid ≠ a := fun e => h e.symm
        rw [if_neg h, mem_lookup_cons, mem_lookup_cons, if_neg h2, if_neg h2, ih]

theorem lookup_save_context_other (st : MemStore) (sid other : String) (t : Turn)
    (h : other ≠ sid) :
    (save_context st sid t).lookup other = st.lookup other := by
  induction st with
  | nil => rfl
  | cons p st ih =>
      obtain ⟨a, b⟩ := p
      rw [save_context_cons]
      by_cases hp : a = sid
      · have ho : other ≠ a := hp ▸ h
        rw [if_pos hp, mem_lookup_cons, mem_lookup_cons, if_neg ho]
        subst hp
        rw [if_neg ho, ih]
      · by_cases ho : other = a
        · rw [if_neg hp, mem_lookup_cons, mem_lookup_cons, if_pos ho, if_pos ho]
        · rw [if_neg hp, mem_lookup_cons, mem_lookup_cons, if_neg ho, if_neg ho, ih]

theorem goc_lookup_self (st : MemStore) (sid : String) :
    (get_or_create_memory_for_session st sid).1.lookup sid =
      some (get_or_create_memory_for_session st sid).2 := by
  unfold get_or_create_memory_for_session
  cases h : st.lookup sid with
  | some turns => simp [h]
  | none => simp [h, List.lookup_append]

theorem goc_lookup_other (st : MemStore) (sid other : String) (h : other ≠ sid) :
    (get_or_create_memory_for_session st sid).1.lookup other = st.lookup other := by
  unfold get_or_create_memory_for_session
  cases hl : st.lookup sid with
  | some turns => simp
  | none =>
      have hb : (other == sid) = false := by
        simp only [beq_eq_false_iff_ne, ne_eq]
        exact h
      simp [List.lookup_append, List.lookup, hb]

theorem strHas_self (x : String) : strHas x x :=
  ⟨[], [], by simp⟩

theorem strHas_append_left (s t x : String) (h : strHas t x) : strHas (s ++ t) x := by
  obtain ⟨u, v, hv⟩ := h
  exact ⟨s.data ++ u, v, by rw [String.data_append, hv, List.append_assoc]⟩

theorem strHas_append_right (s t x : String) (h : strHas s x) : strHas (s ++ t) x := by
  obtain ⟨u, v, hv⟩ := h
  refine ⟨u, v ++ t.data, ?_⟩
  rw [String.data_append, hv]
  simp

theorem strHas_of_mem_joinSep (sep x : String) (l : List String) (hx : x ∈ l) :
    strHas (joinSep sep l) x := by
  induction l with
  | nil => cases hx
  | cons y ys ih =>
      cases ys with
      | nil =>
          rcases List.mem_singleton.mp hx with rfl
          exact strHas_self x
      | cons z zs =>
          rcases List.mem_cons.mp hx with rfl | hmem
          · exact strHas_append_right _ _ _ (strHas_self x)
          · exact strHas_append_left _ _ _ (strHas_append_left _ _ _ (ih hmem))

theorem mkVariant_eq (pid : Nat) (r : CsvRow) (v : ProductVariant)
    (h : mkVariant pid r = some v) : v = rowVariant pid r := by
  unfold mkVariant at h
  cases hr : priceOf r.retail_price with
  | none => rw [hr] at h; cases h
  | some rp =>
      cases hd : priceOf r.discounted_price with
      | none => rw [hr, hd] at h; cases h
      | some dp =>
          rw [hr, hd] at h
          cases h
          simp [rowVariant, hr, hd]

theorem variantsFor_some (pid : Nat) (g : List CsvRow) (vs : List ProductVariant)
    (h : variantsFor pid g = some vs) : vs = g.map (rowVariant pid) := by
  induction g generalizing vs with
  | nil => cases h; rfl
  | cons r rs ih =>
      unfold variantsFor at h
      cases hv : mkVariant pid r with
      | none => rw [hv] at h; cases h
      | some v =>
          cases hrest : variantsFor pid rs with
          | none => rw [hv, hrest] at h; cases h
          | some vs' =>
              rw [hv, hrest] at h
              cases h
              rw [List.map_cons, ← ih vs' hrest, mkVariant_eq pid r v hv]

theorem variantsFor_isSome (pid : Nat) (g : List CsvRow)
    (h : ∀ r ∈ g, rowParses r) : (variantsFor pid g).isSome := by
  induction g with
  | nil => rfl
  | cons r rs ih =>
      obtain ⟨h1, h2⟩ := h r (List.mem_cons_self r rs)
      unfold variantsFor
      cases hr : priceOf r.retail_price with
      | none => rw [hr] at h1; cases h1
      | some rp =>
          cases hd : priceOf r.discounted_price with
          | none => rw [hd] at h2; cases h2
          | some dp =>
              have := ih (fun x hx => h x (List.mem_cons_of_mem r hx))
              cases hrest : variantsFor pid rs with
              | none => rw [hrest] at this; cases this
              | some vs => simp [mkVariant, hr, hd, hrest]

theorem buildBatch_some (csv : List CsvRow) (nid : Nat) (keys : List String)
    (ps : List ProductRec) (vs : List ProductVariant) (n' : Nat)
    (h : buildBatch csv nid keys = some (ps, vs, n')) :
    ps = buildProducts csv nid keys ∧ vs = buildVariantsSpec csv nid keys ∧
      n' = nid + keys.length := by
  induction keys generalizing nid ps vs n' with
  | nil =>
      cases h
      exact ⟨rfl, rfl, rfl⟩
  | cons key keys ih =>
      simp only [buildBatch] at h
      cases hv : variantsFor nid (groupRows csv key) with
      | none => rw [hv] at h; cases h
      | some gvs =>
          cases hrest : buildBatch csv (nid + 1) keys with
          | none => rw [hv, hrest] at h; cases h
          | some out =>
              obtain ⟨ps2, vs2, m2⟩ := out
              rw [hv, hrest] at h
              cases h
              obtain ⟨e1, e2, e3⟩ := ih (nid + 1) _ _ _ hrest
              refine ⟨?_, ?_, ?_⟩
              · rw [buildProducts, e1]
              · rw [buildVariantsSpec, e2, variantsFor_some nid _ gvs hv]
              · rw [e3, List.length_cons]
                omega

theorem buildBatch_isSome (csv : List CsvRow) (keys : List String) :
    ∀ nid : Nat, (∀ k ∈ keys, ∀ r ∈ groupRows csv k, rowParses r) →
      (buildBatch csv nid keys).isSome := by
  induction keys with
  | nil =>
      intro nid _
      rfl
  | cons key keys ih =>
      intro nid h
      have h1 := variantsFor_isSome nid (groupRows csv key)
        (h key (List.mem_cons_self key keys))
      have h2 := ih (nid + 1) (fun k hk => h k (List.mem_cons_of_mem key hk))
      cases hv : variantsFor nid (groupRows csv key) with
      | none => rw [hv] at h1; cases h1
      | some gvs =>
          cases hrest : buildBatch csv (nid + 1) keys with
          | none => rw [hrest] at h2; cases h2
          | some out =>
              obtain ⟨ps', vs', n''⟩ := out
              simp [buildBatch, hv, hrest]

theorem buildProducts_length (csv : List CsvRow) (nid : Nat) (keys : List String) :
    (buildProducts csv nid keys).length = keys.length := by
  induction keys generalizing nid with
  | nil => rfl
  | cons key keys ih => simp [buildProducts, ih]

theorem buildProducts_map_uniq (csv : List CsvRow) (nid : Nat) (keys : List String) :
    (buildProducts csv nid keys).map (·.uniq_id) = keys := by
  induction keys generalizing nid with
  | nil => rfl
  | cons key keys ih => simp [buildProducts, mkProduct, ih]

theorem buildProducts_map_id (csv : List CsvRow) (nid : Nat) (keys : List String) :
    (buildProducts csv nid keys).map (·.id) = List.range' nid keys.length := by
  induction keys generalizing nid with
  | nil => rfl
  | cons key keys ih => simp [buildProducts, mkProduct, ih, List.range'_succ]

theorem buildVariantsSpec_length (csv : List CsvRow) (nid : Nat) (keys : List String) :
    (buildVariantsSpec csv nid keys).length =
      (keys.map (fun k => (groupRows csv k).length)).sum := by
  induction keys generalizing nid with
  | nil => rfl
  | cons key keys ih => simp [buildVariantsSpec, ih]

theorem buildVariantsSpec_owner (csv : List CsvRow) (nid : Nat) (keys : List String)
    (v : ProductVariant) (hv : v ∈ buildVariantsSpec csv nid keys) :
    ∃ p ∈ buildProducts csv nid keys, p.id = v.product_id := by
  induction keys generalizing nid with
  | nil => cases hv
  | cons key keys ih =>
      rw [buildVariantsSpec, List.mem_append] at hv
      rcases hv with hv | hv
      · obtain ⟨r, _, hr⟩ := List.mem_map.mp hv
        refine ⟨mkProduct nid key (groupRows csv key), List.mem_cons_self _ _, ?_⟩
        rw [← hr]
        rfl
      · obtain ⟨p, hp, he⟩ := ih (nid + 1) hv
        exact ⟨p, List.mem_cons_of_mem _ hp, he⟩

theorem buildProducts_have_variants (csv : List CsvRow) (keys : List String) :
    ∀ nid : Nat, (∀ k ∈ keys, groupRows csv k ≠ []) →
      ∀ p ∈ buildProducts csv nid keys,
        ∃ v ∈ buildVariantsSpec csv nid keys, v.product_id = p.id := by
  induction keys with
  | nil =>
      intro nid _ p hp
      cases hp
  | cons key keys ih =>
      intro nid hne p hp
      rw [buildProducts, List.mem_cons] at hp
      rcases hp with rfl | hp
      · cases hg : groupRows csv key with
        | nil => exact absurd hg (hne key (List.mem_cons_self _ _))
        | cons r rs =>
            refine ⟨rowVariant nid r, ?_, rfl⟩
            rw [buildVariantsSpec, hg, List.mem_append]
            exact Or.inl (List.mem_map_of_mem _ (List.mem_cons_self r rs))
      · obtain ⟨v, hv, he⟩ :=
          ih (nid + 1) (fun k hk => hne k (List.mem_cons_of_mem _ hk)) p hp
        rw [buildVariantsSpec]
        exact ⟨v, List.mem_append.mpr (Or.inr hv), he⟩

theorem insertSorted_perm (x : String) (l : List String) :
    (insertSorted x l).Perm (x :: l) := by
  induction l with
  | nil => exact List.Perm.refl _
  | cons y ys ih =>
      unfold insertSorted
      by_cases h : lexLe x.data y.data
      · rw [if_pos h]
      · rw [if_neg h]
        exact (ih.cons y).trans (List.Perm.swap x y ys)

theorem sortKeys_perm (l : List String) : (sortKeys l).Perm l := by
  induction l with
  | nil => exact List.Perm.refl _
  | cons x xs ih => exact (insertSorted_perm x (sortKeys xs)).trans (ih.cons x)

theorem csvKeys_perm (csv : List CsvRow) :
    (csvKeys csv).Perm (csv.map (·.product_id)).dedup :=
  sortKeys_perm _

theorem csvKeys_nodup (csv : List CsvRow) : (csvKeys csv).Nodup :=
  (csvKeys_perm csv).nodup_iff.mpr (List.nodup_dedup _)

theorem mem_csvKeys (csv : List CsvRow) (k : String) :
    k ∈ csvKeys csv ↔ k ∈ csv.map (·.product_id) := by
  rw [(csvKeys_perm csv).mem_iff, List.mem_dedup]

theorem newKeys_nodup (st : RelStore) (csv : List CsvRow) : (newKeys st csv).Nodup :=
  (csvKeys_nodup csv).filter _

theorem mem_newKeys (st : RelStore) (csv : List CsvRow) (k : String) :
    k ∈ newKeys st csv ↔ k ∈ csvKeys csv ∧ existsUniqId st k = false := by
  simp [newKeys, List.mem_filter]

theorem existsUniqId_iff (st : RelStore) (k : String) :
    existsUniqId st k = true ↔ k ∈ uniqIds st := by
  simp [existsUniqId, uniqIds, List.any_eq_true, List.mem_map, beq_iff_eq]

theorem groupRows_length (csv : List CsvRow) (k : String) :
    (groupRows csv k).length = (csv.map (·.product_id)).count k := by
  induction csv with
  | nil => rfl
  | cons r rs ih =>
      unfold groupRows at ih ⊢
      by_cases h : r.product_id = k
      · have hb : (r.product_id == k) = true := by simpa using h
        simp [List.filter, hb, List.count_cons, ih, h]
      · have hb : (r.product_id == k) = false := by simpa using h
        simp [List.filter, hb, List.count_cons, ih, h]

theorem sum_groupRows_csvKeys (csv : List CsvRow) :
    ((csvKeys csv).map (fun k => (groupRows csv k).length)).sum = csv.length := by
  rw [((csvKeys_perm csv).map (fun k => (groupRows csv k).length)).sum_eq]
  simp only [groupRows_length]
  have h := List.sum_map_count_dedup_eq_length (csv.map (·.product_id))
  simpa using h

theorem ingest_step (csv : List CsvRow) (fail : IngestFail) (st : RelStore)
    (docStore : List Doc) :
    ingest_data_in_background true (some csv) fail st docStore =
      (match buildBatch csv st.nextId (newKeys st csv) with
       | none => ⟨st, docStore, 0⟩
       | some (ps, vs, nid') =>
           match fail with
           | .atCommit => ⟨st, docStore, 0⟩
           | _ =>
               let st' : RelStore := ⟨st.products ++ ps, st.variants ++ vs, nid'⟩
               if ps.isEmpty then ⟨st', docStore, ps.length⟩
               else
                 let hydrated := ps.map (fun p => (p, variantsOf st' p.id))
                 let documents := create_documents_from_db hydrated
                 if documents.isEmpty then ⟨st', docStore, ps.length⟩
                 else match fail with
                   | .atUpsert => ⟨st', docStore, ps.length⟩
                   | .atUpsertInsert => ⟨st', [], ps.length⟩
                   | _ => ⟨st', documents, ps.length⟩) := rfl

theorem ingest_empty_batch (csv : List CsvRow) (st : RelStore) (docs : List Doc)
    (fail : IngestFail) (hk : newKeys st csv = []) :
    ingest_data_in_background true (some csv) fail st docs = ⟨st, docs, 0⟩ := by
  rw [ingest_step, hk]
  cases fail <;> simp [buildBatch]

theorem ingest_rollback (csv : List CsvRow) (st : RelStore) (docs : List Doc)
    (fail : IngestFail)
    (hb : buildBatch csv st.nextId (newKeys st csv) = none) :
    ingest_data_in_background true (some csv) fail st docs = ⟨st, docs, 0⟩ := by
  rw [ingest_step, hb]

theorem ingest_atCommit (csv : List CsvRow) (st : RelStore) (docs : List Doc) :
    ingest_data_in_background true (some csv) .atCommit st docs = ⟨st, docs, 0⟩ := by
  rw [ingest_step]
  cases hb : buildBatch csv st.nextId (newKeys st csv) with
  | none => rfl
  | some out =>
      obtain ⟨ps, vs, n'⟩ := out
      rfl

theorem ingest_atUpsert (csv : List CsvRow) (st : RelStore) (docs : List Doc)
    (ps : List ProductRec) (vs : List ProductVariant) (n' : Nat)
    (hb : buildBatch csv st.nextId (newKeys st csv) = some (ps, vs, n')) :
    ingest_data_in_background true (some csv) .atUpsert st docs =
      ⟨⟨st.products ++ ps, st.variants ++ vs, n'⟩, docs, ps.length⟩ := by
  rw [ingest_step, hb]
  cases ps with
  | nil => simp
  | cons p ps' => simp [create_documents_from_db]

theorem ingest_success (csv : List CsvRow) (st : RelStore) (docs : List Doc)
    (ps : List ProductRec) (vs : List ProductVariant) (n' : Nat)
    (hb : buildBatch csv st.nextId (newKeys st csv) = some (ps, vs, n'))
    (hne : ps ≠ []) :
    ingest_data_in_background true (some csv) .nofail st docs =
      ⟨⟨st.products ++ ps, st.variants ++ vs, n'⟩,
       create_documents_from_db
         (ps.map (fun p => (p, variantsOf ⟨st.products ++ ps, st.variants ++ vs, n'⟩ p.id))),
       ps.length⟩ := by
  rw [ingest_step, hb]
  cases ps with
  | nil => exact absurd rfl hne
  | cons p ps' => simp [create_documents_from_db]

theorem ingest_atUpsertInsert (csv : List CsvRow) (st : RelStore) (docs : List Doc)
    (ps : List ProductRec) (vs : List ProductVariant) (n' : Nat)
    (hb : buildBatch csv st.nextId (newKeys st csv) = some (ps, vs, n'))
    (hne : ps ≠ []) :
    ingest_data_in_background true (some csv) .atUpsertInsert st docs =
      ⟨⟨st.products ++ ps, st.variants ++ vs, n'⟩, [], ps.length⟩ := by
  rw [ingest_step, hb]
  cases ps with
  | nil => exact absurd rfl hne
  | cons p ps' => simp [create_documents_from_db]

theorem groupRows_ne_nil (csv : List CsvRow) (k : String) (hk : k ∈ csvKeys csv) :
    groupRows csv k ≠ [] := by
  rw [mem_csvKeys] at hk
  obtain ⟨r, hr, he⟩ := List.mem_map.mp hk
  intro hcon
  have : r ∈ groupRows csv k := by
    rw [groupRows, List.mem_filter]
    exact ⟨hr, by simpa using he⟩
  rw [hcon] at this
  cases this

theorem ingest_rel_committed (csv : List CsvRow) (st : RelStore) (docs : List Doc)
    (fail : IngestFail) (ps : List ProductRec) (vs : List ProductVariant) (n' : Nat)
    (hb : buildBatch csv st.nextId (newKeys st csv) = some (ps, vs, n'))
    (hf : fail ≠ .atCommit) :
    (ingest_data_in_background true (some csv) fail st docs).rel =
      ⟨st.products ++ ps, st.variants ++ vs, n'⟩ := by
  cases fail with
  | atCommit => exact absurd rfl hf
  | atUpsert => rw [ingest_atUpsert csv st docs ps vs n' hb]
  | atUpsertInsert =>
      rw [ingest_step, hb]
      cases ps with
      | nil => simp
      | cons p ps2 => simp [create_documents_from_db]
  | nofail =>
      rw [ingest_step, hb]
      cases ps with
      | nil => simp
      | cons p ps2 => simp [create_documents_from_db]

theorem ingest_noop_known (csv : List CsvRow) (st : RelStore) (docs : List Doc)
    (fail : IngestFail) (h : ∀ k ∈ csvKeys csv, k ∈ uniqIds st) :
    ingest_data_in_background true (some csv) fail st docs = ⟨st, docs, 0⟩ := by
  have hk : newKeys st csv = [] := by
    rw [List.eq_nil_iff_forall_not_mem]
    intro k hkmem
    rw [mem_newKeys] at hkmem
    obtain ⟨h1, h2⟩ := hkmem
    have := (existsUniqId_iff st k).mpr (h k h1)
    rw [this] at h2
    cases h2
  exact ingest_empty_batch csv st docs fail hk

theorem uniqIds_after_commit (csv : List CsvRow) (st : RelStore)
    (ps : List ProductRec) (vs : List ProductVariant) (n' : Nat)
    (hb : buildBatch csv st.nextId (newKeys st csv) = some (ps, vs, n')) :
    uniqIds ⟨st.products ++ ps, st.variants ++ vs, n'⟩ =
      uniqIds st ++ newKeys st csv := by
  obtain ⟨e1, _, _⟩ := buildBatch_some csv st.nextId (newKeys st csv) ps vs n' hb
  rw [uniqIds, List.map_append, e1, buildProducts_map_uniq]
  rfl

theorem nodup_uniqIds_after (csv : List CsvRow) (st : RelStore)
    (ps : List ProductRec) (vs : List ProductVariant) (n' : Nat)
    (hb : buildBatch csv st.nextId (newKeys st csv) = some (ps, vs, n'))
    (hnd : (uniqIds st).Nodup) :
    (uniqIds ⟨st.products ++ ps, st.variants ++ vs, n'⟩).Nodup := by
  rw [uniqIds_after_commit csv st ps vs n' hb]
  refine List.Nodup.append hnd (newKeys_nodup st csv) ?_
  intro a ha hamem
  rw [mem_newKeys] at hamem
  have := (existsUniqId_iff st a).mpr ha
  rw [hamem.2] at this
  cases this

/-! ## Claim theorems -/

/-- C5: ingestion is idempotent per product id.  (1) When every id of the
source already exists in the product store, the whole call is a no-op:
no products, no variants, no document-store change, zero new products.
(2) If the stored external ids are duplicate-free they remain so after
any ingestion call, so an id is never stored twice.  (3) If the document
collection holds at most one document per product it still does after
ingestion.  (4) Re-running a successfully ingested source is a no-op
returning zero newly created products. -/
theorem ingest_idempotent_unique (csv : List CsvRow) (st : RelStore)
    (docs : List Doc) (fail : IngestFail) :
    ((∀ k ∈ csvKeys csv, k ∈ uniqIds st) →
      ingest_data_in_background true (some csv) fail st docs = ⟨st, docs, 0⟩) ∧
    ((uniqIds st).Nodup →
      (uniqIds (ingest_data_in_background true (some csv) fail st docs).rel).Nodup) ∧
    ((docProductIds docs).Nodup →
      (docProductIds (ingest_data_in_background true (some csv) fail st docs).docs).Nodup) ∧
    ((buildBatch csv st.nextId (newKeys st csv)).isSome →
      ingest_data_in_background true (some csv) fail
          (ingest_data_in_background true (some csv) .nofail st docs).rel
          (ingest_data_in_background true (some csv) .nofail st docs).docs =
        ⟨(ingest_data_in_background true (some csv) .nofail st docs).rel,
         (ingest_data_in_background true (some csv) .nofail st docs).docs, 0⟩) := by
  refine ⟨ingest_noop_known csv st docs fail, ?_, ?_, ?_⟩
  · intro hnd
    cases hb : buildBatch csv st.nextId (newKeys st csv) with
    | none => rw [ingest_rollback csv st docs fail hb]; exact hnd
    | some out =>
        obtain ⟨ps, vs, n'⟩ := out
        by_cases hf : fail = .atCommit
        · subst hf
          rw [ingest_atCommit csv st docs]
          exact hnd
        · rw [ingest_rel_committed csv st docs fail ps vs n' hb hf]
          exact nodup_uniqIds_after csv st ps vs n' hb hnd
  · intro hnd
    cases hb : buildBatch csv st.nextId (newKeys st csv) with
    | none => rw [ingest_rollback csv st docs fail hb]; exact hnd
    | some out =>
        obtain ⟨ps, vs, n'⟩ := out
        cases fail with
        | atCommit => rw [ingest_atCommit csv st docs]; exact hnd
        | atUpsert => rw [ingest_atUpsert csv st docs ps vs n' hb]; exact hnd
        | atUpsertInsert =>
            cases hps : ps with
            | nil =>
                subst hps
                rw [ingest_step, hb]
                simpa using hnd
            | cons p ps2 =>
                rw [ingest_atUpsertInsert csv st docs ps vs n' hb
                  (hps ▸ List.cons_ne_nil p ps2)]
                simp [docProductIds]
        | nofail =>
            cases hps : ps with
            | nil =>
                subst hps
                rw [ingest_step, hb]
                simpa using hnd
            | cons p ps2 =>
                rw [ingest_success csv st docs ps vs n' hb (hps ▸ List.cons_ne_nil p ps2)]
                obtain ⟨e1, _, _⟩ := buildBatch_some csv st.nextId (newKeys st csv) ps vs n' hb
                have hids : docProductIds
                    (create_documents_from_db
                      (ps.map (fun p =>
                        (p, variantsOf ⟨st.products ++ ps, st.variants ++ vs, n'⟩ p.id)))) =
                    ps.map (·.id) := by
                  simp only [docProductIds, create_documents_from_db, List.map_map]
                  exact List.map_congr_left (fun a _ => rfl)
                rw [hids, e1, buildProducts_map_id]
                exact List.nodup_range' _ _
  · intro hb
    rw [Option.isSome_iff_exists] at hb
    obtain ⟨out, hb⟩ := hb
    obtain ⟨ps, vs, n'⟩ := out
    refine ingest_noop_known csv _ _ fail ?_
    intro k hk
    rw [ingest_rel_committed csv st docs .nofail ps vs n' hb (by simp),
      uniqIds_after_commit csv st ps vs n' hb, List.mem_append]
    by_cases he : existsUniqId st k = true
    · exact Or.inl ((existsUniqId_iff st k).mp he)
    · exact Or.inr ((mem_newKeys st csv k).mpr ⟨hk, by simpa using he⟩)

/-- C5 witness: a store already holding product "p1" and a source whose
only rows carry id "p1"; the call is a no-op and every uniqueness
invariant holds. -/
theorem ingest_idempotent_unique_witness :
    ingest_data_in_background true
        (some [⟨"p1", "Shampoo", "Pets", "desc", "B", "u", "i", none, none⟩]) .nofail
        ⟨[⟨0, "p1", "Shampoo", "Pets", "desc", "B", "u", ["i"]⟩], [], 1⟩ [] =
      ⟨⟨[⟨0, "p1", "Shampoo", "Pets", "desc", "B", "u", ["i"]⟩], [], 1⟩, [], 0⟩ ∧
    (uniqIds (ingest_data_in_background true
        (some [⟨"p1", "Shampoo", "Pets", "desc", "B", "u", "i", none, none⟩]) .nofail
        ⟨[⟨0, "p1", "Shampoo", "Pets", "desc", "B", "u", ["i"]⟩], [], 1⟩ []).rel).Nodup ∧
    (docProductIds (ingest_data_in_background true
        (some [⟨"p1", "Shampoo", "Pets", "desc", "B", "u", "i", none, none⟩]) .nofail
        ⟨[⟨0, "p1", "Shampoo", "Pets", "desc", "B", "u", ["i"]⟩], [], 1⟩ []).docs).Nodup ∧
    ingest_data_in_background true
        (some [⟨"p1", "Shampoo", "Pets", "desc", "B", "u", "i", none, none⟩]) .nofail
        (ingest_data_in_background true
          (some [⟨"p1", "Shampoo", "Pets", "desc", "B", "u", "i", none, none⟩]) .nofail
          ⟨[⟨0, "p1", "Shampoo", "Pets", "desc", "B", "u", ["i"]⟩], [], 1⟩ []).rel
        (ingest_data_in_background true
          (some [⟨"p1", "Shampoo", "Pets", "desc", "B", "u", "i", none, none⟩]) .nofail
          ⟨[⟨0, "p1", "Shampoo", "Pets", "desc", "B", "u", ["i"]⟩], [], 1⟩ []).docs =
      ⟨(ingest_data_in_background true
          (some [⟨"p1", "Shampoo", "Pets", "desc", "B", "u", "i", none, none⟩]) .nofail
          ⟨[⟨0, "p1", "Shampoo", "Pets", "desc", "B", "u", ["i"]⟩], [], 1⟩ []).rel,
       (ingest_data_in_background true
          (some [⟨"p1", "Shampoo", "Pets", "desc", "B", "u", "i", none, none⟩]) .nofail
          ⟨[⟨0, "p1", "Shampoo", "Pets", "desc", "B", "u", ["i"]⟩], [], 1⟩ []).docs, 0⟩ :=
  ⟨(ingest_idempotent_unique
      [⟨"p1", "Shampoo", "Pets", "desc", "B", "u", "i", none, none⟩]
      ⟨[⟨0, "p1", "Shampoo", "Pets", "desc", "B", "u", ["i"]⟩], [], 1⟩ [] .nofail).1
      (by decide),
   (ingest_idempotent_unique
      [⟨"p1", "Shampoo", "Pets", "desc", "B", "u", "i", none, none⟩]
      ⟨[⟨0, "p1", "Shampoo", "Pets", "desc", "B", "u", ["i"]⟩], [], 1⟩ [] .nofail).2.1
      (by decide),
   (ingest_idempotent_unique
      [⟨"p1", "Shampoo", "Pets", "desc", "B", "u", "i", none, none⟩]
      ⟨[⟨0, "p1", "Shampoo", "Pets", "desc", "B", "u", ["i"]⟩], [], 1⟩ [] .nofail).2.2.1
      (by decide),
   (ingest_idempotent_unique
      [⟨"p1", "Shampoo", "Pets", "desc", "B", "u", "i", none, none⟩]
      ⟨[⟨0, "p1", "Shampoo", "Pets", "desc", "B", "u", ["i"]⟩], [], 1⟩ [] .nofail).2.2.2
      (by decide)⟩

/-- C6 counterexample: an injected failure of the document-store upsert
— which in the code happens after `session.commit()` — leaves the freshly
committed product in the relational store: the batch is NOT rolled back
on this failure, contradicting "on any failure during the call the entire
batch is rolled back". -/
theorem ingest_post_commit_failure_counterexample :
    (ingest_data_in_background true
        (some [⟨"p1", "Shampoo", "Pets", "desc", "B", "u", "i", none, none⟩]) .atUpsert
        ⟨[], [], 1⟩ []).rel.products.length = 1 ∧
    (ingest_data_in_background true
        (some [⟨"p1", "Shampoo", "Pets", "desc", "B", "u", "i", none, none⟩]) .atUpsert
        ⟨[], [], 1⟩ []).rel ≠ ⟨[], [], 1⟩ := by decide

/-- C6 (amended): a missing source file is the only read error caught at
the pipeline boundary — it aborts the call with zero products and
untouched stores — while any other CSV read error (an empty or malformed
file) escapes the function uncaught, with both stores still exactly as
found, since the read precedes every store access.  All newly created
products and variants of one call are committed as a single transaction:
any failure up to and including the commit (an unparseable row, or the
commit itself raising) rolls the entire batch back.  A failure after the
commit, during the document upsert, leaves the whole committed batch in
place; the collection stays untouched when the upsert raises before
reaching it, and is left wiped when it raises after its pre-delete step
during insert.  In every returning path referential integrity holds both
ways: no variant without its product and no product without at least one
variant. -/
theorem ingest_transaction_boundaries (csv : List CsvRow) (st : RelStore)
    (docs : List Doc) (fail : IngestFail) :
    (run_ingest_task true .fileMissing fail st docs = .returns ⟨st, docs, 0⟩) ∧
    (run_ingest_task true .readRaises fail st docs = .escapes st docs) ∧
    ((buildBatch csv st.nextId (newKeys st csv) = none ∨ fail = .atCommit) →
      ingest_data_in_background true (some csv) fail st docs = ⟨st, docs, 0⟩) ∧
    (∀ ps vs n', buildBatch csv st.nextId (newKeys st csv) = some (ps, vs, n') →
      ingest_data_in_background true (some csv) .atUpsert st docs =
        ⟨⟨st.products ++ ps, st.variants ++ vs, n'⟩, docs, ps.length⟩) ∧
    (∀ ps vs n', buildBatch csv st.nextId (newKeys st csv) = some (ps, vs, n') →
      ps ≠ [] →
      ingest_data_in_background true (some csv) .atUpsertInsert st docs =
        ⟨⟨st.products ++ ps, st.variants ++ vs, n'⟩, [], ps.length⟩) ∧
    ((∀ v ∈ st.variants, ∃ p ∈ st.products, p.id = v.product_id) →
      ∀ v ∈ (ingest_data_in_background true (some csv) fail st docs).rel.variants,
        ∃ p ∈ (ingest_data_in_background true (some csv) fail st docs).rel.products,
          p.id = v.product_id) ∧
    ((∀ p ∈ st.products, ∃ v ∈ st.variants, v.product_id = p.id) →
      ∀ p ∈ (ingest_data_in_background true (some csv) fail st docs).rel.products,
        ∃ v ∈ (ingest_data_in_background true (some csv) fail st docs).rel.variants,
          v.product_id = p.id) := by
  refine ⟨rfl, rfl, ?_, fun ps vs n' hb => ingest_atUpsert csv st docs ps vs n' hb,
    fun ps vs n' hb hne => ingest_atUpsertInsert csv st docs ps vs n' hb hne, ?_, ?_⟩
  · rintro (hb | hf)
    · exact ingest_rollback csv st docs fail hb
    · subst hf
      exact ingest_atCommit csv st docs
  · intro hinv
    cases hb : buildBatch csv st.nextId (newKeys st csv) with
    | none =>
        rw [ingest_rollback csv st docs fail hb]
        exact hinv
    | some out =>
        obtain ⟨ps, vs, n'⟩ := out
        by_cases hf : fail = .atCommit
        · subst hf
          rw [ingest_atCommit csv st docs]
          exact hinv
        · rw [ingest_rel_committed csv st docs fail ps vs n' hb hf]
          obtain ⟨e1, e2, _⟩ := buildBatch_some csv st.nextId (newKeys st csv) ps vs n' hb
          intro v hv
          rw [List.mem_append] at hv
          rcases hv with hv | hv
          · obtain ⟨p, hp, he⟩ := hinv v hv
            exact ⟨p, List.mem_append.mpr (Or.inl hp), he⟩
          · rw [e2] at hv
            obtain ⟨p, hp, he⟩ := buildVariantsSpec_owner csv st.nextId (newKeys st csv) v hv
            rw [← e1] at hp
            exact ⟨p, List.mem_append.mpr (Or.inr hp), he⟩
  · intro hinv
    cases hb : buildBatch csv st.nextId (newKeys st csv) with
    | none =>
        rw [ingest_rollback csv st docs fail hb]
        exact hinv
    | some out =>
        obtain ⟨ps, vs, n'⟩ := out
        by_cases hf : fail = .atCommit
        · subst hf
          rw [ingest_atCommit csv st docs]
          exact hinv
        · rw [ingest_rel_committed csv st docs fail ps vs n' hb hf]
          obtain ⟨e1, e2, _⟩ := buildBatch_some csv st.nextId (newKeys st csv) ps vs n' hb
          intro p hp
          rw [List.mem_append] at hp
          rcases hp with hp | hp
          · obtain ⟨v, hv, he⟩ := hinv p hp
            exact ⟨v, List.mem_append.mpr (Or.inl hv), he⟩
          · rw [e1] at hp
            have hgrp : ∀ k ∈ newKeys st csv, groupRows csv k ≠ [] := by
              intro k hk
              exact groupRows_ne_nil csv k ((mem_newKeys st csv k).mp hk).1
            obtain ⟨v, hv, he⟩ :=
              buildProducts_have_variants csv (newKeys st csv) st.nextId hgrp p hp
            rw [← e2] at hv
            exact ⟨v, List.mem_append.mpr (Or.inr hv), he⟩

/-- C6 witness: a one-row source over an empty store.  The caught
missing-file read returns with untouched stores; a malformed-file read
escapes with untouched stores; a commit failure rolls the batch back; an
upsert failure before the collection keeps the batch and the collection;
one after the pre-delete keeps the batch but wipes the collection;
integrity holds. -/
theorem ingest_transaction_boundaries_witness :
    (run_ingest_task true .fileMissing .atCommit ⟨[], [], 1⟩ [] =
      .returns ⟨⟨[], [], 1⟩, [], 0⟩) ∧
    (run_ingest_task true .readRaises .atCommit ⟨[], [], 1⟩ [] =
      .escapes ⟨[], [], 1⟩ []) ∧
    (ingest_data_in_background true
        (some [⟨"p1", "Shampoo", "Pets", "desc", "B", "u", "i", none, none⟩]) .atCommit
        ⟨[], [], 1⟩ [] = ⟨⟨[], [], 1⟩, [], 0⟩) ∧
    (ingest_data_in_background true
        (some [⟨"p1", "Shampoo", "Pets", "desc", "B", "u", "i", none, none⟩]) .atUpsert
        ⟨[], [], 1⟩ [] =
      ⟨⟨[] ++ buildProducts [⟨"p1", "Shampoo", "Pets", "desc", "B", "u", "i", none, none⟩] 1
            (newKeys ⟨[], [], 1⟩ [⟨"p1", "Shampoo", "Pets", "desc", "B", "u", "i", none, none⟩]),
        [] ++ buildVariantsSpec [⟨"p1", "Shampoo", "Pets", "desc", "B", "u", "i", none, none⟩] 1
            (newKeys ⟨[], [], 1⟩ [⟨"p1", "Shampoo", "Pets", "desc", "B", "u", "i", none, none⟩]),
        2⟩, [], 1⟩) ∧
    (ingest_data_in_background true
        (some [⟨"p1", "Shampoo", "Pets", "desc", "B", "u", "i", none, none⟩]) .atUpsertInsert
        ⟨[], [], 1⟩ [] =
      ⟨⟨[] ++ buildProducts [⟨"p1", "Shampoo", "Pets", "desc", "B", "u", "i", none, none⟩] 1
            (newKeys ⟨[], [], 1⟩ [⟨"p1", "Shampoo", "Pets", "desc", "B", "u", "i", none, none⟩]),
        [] ++ buildVariantsSpec [⟨"p1", "Shampoo", "Pets", "desc", "B", "u", "i", none, none⟩] 1
            (newKeys ⟨[], [], 1⟩ [⟨"p1", "Shampoo", "Pets", "desc", "B", "u", "i", none, none⟩]),
        2⟩, [], 1⟩) ∧
    (∀ v ∈ (ingest_data_in_background true
        (some [⟨"p1", "Shampoo", "Pets", "desc", "B", "u", "i", none, none⟩]) .atUpsert
        ⟨[], [], 1⟩ []).rel.variants,
      ∃ p ∈ (ingest_data_in_background true
        (some [⟨"p1", "Shampoo", "Pets", "desc", "B", "u", "i", none, none⟩]) .atUpsert
        ⟨[], [], 1⟩ []).rel.products, p.id = v.product_id) :=
  ⟨(ingest_transaction_boundaries
      [⟨"p1", "Shampoo", "Pets", "desc", "B", "u", "i", none, none⟩]
      ⟨[], [], 1⟩ [] .atCommit).1,
   (ingest_transaction_boundaries
      [⟨"p1", "Shampoo", "Pets", "desc", "B", "u", "i", none, none⟩]
      ⟨[], [], 1⟩ [] .atCommit).2.1,
   (ingest_transaction_boundaries
      [⟨"p1", "Shampoo", "Pets", "desc", "B", "u", "i", none, none⟩]
      ⟨[], [], 1⟩ [] .atCommit).2.2.1 (Or.inr rfl),
   (ingest_transaction_boundaries
      [⟨"p1", "Shampoo", "Pets", "desc", "B", "u", "i", none, none⟩]
      ⟨[], [], 1⟩ [] .atUpsert).2.2.2.1 _ _ _ (by decide),
   (ingest_transaction_boundaries
      [⟨"p1", "Shampoo", "Pets", "desc", "B", "u", "i", none, none⟩]
      ⟨[], [], 1⟩ [] .atUpsertInsert).2.2.2.2.1 _ _ _ (by decide) (by decide),
   (ingest_transaction_boundaries
      [⟨"p1", "Shampoo", "Pets", "desc", "B", "u", "i", none, none⟩]
      ⟨[], [], 1⟩ [] .atUpsert).2.2.2.2.2.1 (by decide)⟩

/-- C7 counterexample: a row whose `retail_price` cell is the
unparseable string "abc".  The claim says the variant is stored with the
price defaulted to 0.0; in the code `float("abc")` raises `ValueError`,
the exception handler rolls the whole batch back, and nothing at all is
stored. -/
theorem ingest_unparseable_price_counterexample :
    ingest_data_in_background true
        (some [⟨"p1", "Shampoo", "Pets", "desc", "B", "u", "i", some "abc", none⟩])
        .nofail ⟨[], [], 1⟩ [] = ⟨⟨[], [], 1⟩, [], 0⟩ := by decide

/-- C7 (amended): for a source whose new groups all have parseable price
cells, ingestion stores exactly one product per distinct new id — built
from the group's first row with the ordered image URLs of all the
group's rows — and one variant per row (stock 100; a price is the parsed
cell value, with 0.0 only when the price column is absent from the
source; an unparseable present cell instead aborts the whole batch, see
the counterexample).  The variant total is the sum of the group sizes,
which equals the row count when every row's id is new. -/
theorem ingest_counts_and_contents (csv : List CsvRow) (st : RelStore)
    (docs : List Doc)
    (hp : ∀ k ∈ newKeys st csv, ∀ r ∈ groupRows csv k, rowParses r) :
    (ingest_data_in_background true (some csv) .nofail st docs).rel.products =
      st.products ++ buildProducts csv st.nextId (newKeys st csv) ∧
    (ingest_data_in_background true (some csv) .nofail st docs).rel.variants =
      st.variants ++ buildVariantsSpec csv st.nextId (newKeys st csv) ∧
    (ingest_data_in_background true (some csv) .nofail st docs).newCount =
      (newKeys st csv).length ∧
    (buildProducts csv st.nextId (newKeys st csv)).length = (newKeys st csv).length ∧
    (buildVariantsSpec csv st.nextId (newKeys st csv)).length =
      ((newKeys st csv).map (fun k => (groupRows csv k).length)).sum ∧
    ((∀ r ∈ csv, existsUniqId st r.product_id = false) →
      ((newKeys st csv).map (fun k => (groupRows csv k).length)).sum = csv.length) := by
  have hbs := buildBatch_isSome csv (newKeys st csv) st.nextId hp
  rw [Option.isSome_iff_exists] at hbs
  obtain ⟨out, hb⟩ := hbs
  obtain ⟨ps, vs, n'⟩ := out
  obtain ⟨e1, e2, _⟩ := buildBatch_some csv st.nextId (newKeys st csv) ps vs n' hb
  have hsum : (∀ r ∈ csv, existsUniqId st r.product_id = false) →
      ((newKeys st csv).map (fun k => (groupRows csv k).length)).sum = csv.length := by
    intro hall
    have hnk : newKeys st csv = csvKeys csv := by
      rw [newKeys, List.filter_eq_self]
      intro k hk
      obtain ⟨r, hr, he⟩ := List.mem_map.mp ((mem_csvKeys csv k).mp hk)
      rw [← he, hall r hr]
      rfl
    rw [hnk, sum_groupRows_csvKeys]
  cases hps : ps with
  | nil =>
      have hkeys : newKeys st csv = [] := by
        have := buildProducts_length csv st.nextId (newKeys st csv)
        rw [← e1, hps] at this
        exact List.length_eq_zero.mp this.symm
      rw [ingest_empty_batch csv st docs .nofail hkeys, hkeys]
      refine ⟨by simp [buildProducts], by simp [buildVariantsSpec], rfl, rfl, rfl, ?_⟩
      intro hall
      have h5 := hsum hall
      rw [hkeys] at h5
      simpa using h5
  | cons p ps2 =>
      rw [ingest_success csv st docs ps vs n' hb (hps ▸ List.cons_ne_nil p ps2)]
      refine ⟨by rw [e1], by rw [e2], ?_,
        buildProducts_length csv st.nextId (newKeys st csv),
        buildVariantsSpec_length csv st.nextId (newKeys st csv), hsum⟩
      have := buildProducts_length csv st.nextId (newKeys st csv)
      rw [← e1] at this
      exact this

/-- C7 witness: three rows over two fresh ids ("p1" twice, "p2" once)
with dot-free parseable prices; two products and three variants land. -/
theorem ingest_counts_and_contents_witness :
    (ingest_data_in_background true
        (some [⟨"p1", "Shampoo", "Pets", "d1", "B", "u1", "i1", some "899", some "100"⟩,
               ⟨"p1", "Shampoo", "Pets", "d1", "B", "u1", "i2", some "899", some "200"⟩,
               ⟨"p2", "Soap", "Home", "d2", "C", "u2", "i3", none, none⟩])
        .nofail ⟨[], [], 1⟩ []).rel.products =
      [] ++ buildProducts
        [⟨"p1", "Shampoo", "Pets", "d1", "B", "u1", "i1", some "899", some "100"⟩,
         ⟨"p1", "Shampoo", "Pets", "d1", "B", "u1", "i2", some "899", some "200"⟩,
         ⟨"p2", "Soap", "Home", "d2", "C", "u2", "i3", none, none⟩] 1
        (newKeys ⟨[], [], 1⟩
          [⟨"p1", "Shampoo", "Pets", "d1", "B", "u1", "i1", some "899", some "100"⟩,
           ⟨"p1", "Shampoo", "Pets", "d1", "B", "u1", "i2", some "899", some "200"⟩,
           ⟨"p2", "Soap", "Home", "d2", "C", "u2", "i3", none, none⟩]) ∧
    (ingest_data_in_background true
        (some [⟨"p1", "Shampoo", "Pets", "d1", "B", "u1", "i1", some "899", some "100"⟩,
               ⟨"p1", "Shampoo", "Pets", "d1", "B", "u1", "i2", some "899", some "200"⟩,
               ⟨"p2", "Soap", "Home", "d2", "C", "u2", "i3", none, none⟩])
        .nofail ⟨[], [], 1⟩ []).newCount = 2 ∧
    ((newKeys ⟨[], [], 1⟩
        [⟨"p1", "Shampoo", "Pets", "d1", "B", "u1", "i1", some "899", some "100"⟩,
         ⟨"p1", "Shampoo", "Pets", "d1", "B", "u1", "i2", some "899", some "200"⟩,
         ⟨"p2", "Soap", "Home", "d2", "C", "u2", "i3", none, none⟩]).map
      (fun k => (groupRows
        [⟨"p1", "Shampoo", "Pets", "d1", "B", "u1", "i1", some "899", some "100"⟩,
         ⟨"p1", "Shampoo", "Pets", "d1", "B", "u1", "i2", some "899", some "200"⟩,
         ⟨"p2", "Soap", "Home", "d2", "C", "u2", "i3", none, none⟩] k).length)).sum = 3 :=
  ⟨(ingest_counts_and_contents
      [⟨"p1", "Shampoo", "Pets", "d1", "B", "u1", "i1", some "899", some "100"⟩,
       ⟨"p1", "Shampoo", "Pets", "d1", "B", "u1", "i2", some "899", some "200"⟩,
       ⟨"p2", "Soap", "Home", "d2", "C", "u2", "i3", none, none⟩]
      ⟨[], [], 1⟩ [] (by decide)).1,
   (ingest_counts_and_contents
      [⟨"p1", "Shampoo", "Pets", "d1", "B", "u1", "i1", some "899", some "100"⟩,
       ⟨"p1", "Shampoo", "Pets", "d1", "B", "u1", "i2", some "899", some "200"⟩,
       ⟨"p2", "Soap", "Home", "d2", "C", "u2", "i3", none, none⟩]
      ⟨[], [], 1⟩ [] (by decide)).2.2.1,
   (ingest_counts_and_contents
      [⟨"p1", "Shampoo", "Pets", "d1", "B", "u1", "i1", some "899", some "100"⟩,
       ⟨"p1", "Shampoo", "Pets", "d1", "B", "u1", "i2", some "899", some "200"⟩,
       ⟨"p2", "Soap", "Home", "d2", "C", "u2", "i3", none, none⟩]
      ⟨[], [], 1⟩ [] (by decide)).2.2.2.2.2 (by decide)⟩

/-- C10: an ingestion call that commits no new product leaves the vector
collection untouched; a successful call that commits at least one new
product replaces the whole collection with exactly the new products'
documents (`pre_delete_collection=True`) — one document per new product,
keyed by the new ids — while the previously stored products remain in
the relational store. -/
theorem ingest_docstore_replace_or_untouched (csv : List CsvRow) (st : RelStore)
    (docs : List Doc) (fail : IngestFail) :
    ((ingest_data_in_background true (some csv) fail st docs).newCount = 0 →
      (ingest_data_in_background true (some csv) fail st docs).docs = docs) ∧
    (∀ ps vs n', buildBatch csv st.nextId (newKeys st csv) = some (ps, vs, n') →
      ps ≠ [] →
      (ingest_data_in_background true (some csv) .nofail st docs).docs =
        create_documents_from_db
          (ps.map (fun p => (p, variantsOf ⟨st.products ++ ps, st.variants ++ vs, n'⟩ p.id))) ∧
      (ingest_data_in_background true (some csv) .nofail st docs).rel.products =
        st.products ++ ps ∧
      docProductIds (ingest_data_in_background true (some csv) .nofail st docs).docs =
        ps.map (·.id)) := by
  constructor
  · intro h0
    cases hb : buildBatch csv st.nextId (newKeys st csv) with
    | none => rw [ingest_rollback csv st docs fail hb]
    | some out =>
        obtain ⟨ps, vs, n'⟩ := out
        cases fail with
        | atCommit => rw [ingest_atCommit csv st docs]
        | atUpsert => rw [ingest_atUpsert csv st docs ps vs n' hb]
        | atUpsertInsert =>
            cases hps : ps with
            | nil =>
                subst hps
                rw [ingest_step, hb]
                simp
            | cons p ps2 =>
                rw [ingest_atUpsertInsert csv st docs ps vs n' hb
                  (hps ▸ List.cons_ne_nil p ps2)] at h0
                rw [hps] at h0
                cases h0
        | nofail =>
            cases hps : ps with
            | nil =>
                subst hps
                rw [ingest_step, hb]
                simp
            | cons p ps2 =>
                rw [ingest_success csv st docs ps vs n' hb
                  (hps ▸ List.cons_ne_nil p ps2)] at h0
                rw [hps] at h0
                cases h0
  · intro ps vs n' hb hne
    rw [ingest_success csv st docs ps vs n' hb hne]
    refine ⟨rfl, rfl, ?_⟩
    simp only [docProductIds, create_documents_from_db, List.map_map]
    exact List.map_congr_left (fun a _ => rfl)

/-- C10 witness: a known-id source leaves a non-empty collection alone;
a fresh one-row source replaces the collection with the new document. -/
theorem ingest_docstore_replace_or_untouched_witness :
    (ingest_data_in_background true
        (some [⟨"p1", "Shampoo", "Pets", "desc", "B", "u", "i", none, none⟩]) .nofail
        ⟨[⟨0, "p1", "Shampoo", "Pets", "desc", "B", "u", ["i"]⟩], [], 1⟩
        [⟨"old doc", 0, "n", "b", "p", "u", "i"⟩]).docs =
      [⟨"old doc", 0, "n", "b", "p", "u", "i"⟩] ∧
    (ingest_data_in_background true
        (some [⟨"p2", "Soap", "Home", "d2", "C", "u2", "i3", none, none⟩]) .nofail
        ⟨[⟨0, "p1", "Shampoo", "Pets", "desc", "B", "u", ["i"]⟩], [], 1⟩
        [⟨"old doc", 0, "n", "b", "p", "u", "i"⟩]).rel.products =
      [⟨0, "p1", "Shampoo", "Pets", "desc", "B", "u", ["i"]⟩] ++
        buildProducts [⟨"p2", "Soap", "Home", "d2", "C", "u2", "i3", none, none⟩] 1
          (newKeys ⟨[⟨0, "p1", "Shampoo", "Pets", "desc", "B", "u", ["i"]⟩], [], 1⟩
            [⟨"p2", "Soap", "Home", "d2", "C", "u2", "i3", none, none⟩]) ∧
    docProductIds (ingest_data_in_background true
        (some [⟨"p2", "Soap", "Home", "d2", "C", "u2", "i3", none, none⟩]) .nofail
        ⟨[⟨0, "p1", "Shampoo", "Pets", "desc", "B", "u", ["i"]⟩], [], 1⟩
        [⟨"old doc", 0, "n", "b", "p", "u", "i"⟩]).docs =
      (buildProducts [⟨"p2", "Soap", "Home", "d2", "C", "u2", "i3", none, none⟩] 1
          (newKeys ⟨[⟨0, "p1", "Shampoo", "Pets", "desc", "B", "u", ["i"]⟩], [], 1⟩
            [⟨"p2", "Soap", "Home", "d2", "C", "u2", "i3", none, none⟩])).map (·.id) :=
  ⟨(ingest_docstore_replace_or_untouched
      [⟨"p1", "Shampoo", "Pets", "desc", "B", "u", "i", none, none⟩]
      ⟨[⟨0, "p1", "Shampoo", "Pets", "desc", "B", "u", ["i"]⟩], [], 1⟩
      [⟨"old doc", 0, "n", "b", "p", "u", "i"⟩] .nofail).1 (by decide),
   ((ingest_docstore_replace_or_untouched
      [⟨"p2", "Soap", "Home", "d2", "C", "u2", "i3", none, none⟩]
      ⟨[⟨0, "p1", "Shampoo", "Pets", "desc", "B", "u", ["i"]⟩], [], 1⟩
      [⟨"old doc", 0, "n", "b", "p", "u", "i"⟩] .nofail).2
      (buildProducts [⟨"p2", "Soap", "Home", "d2", "C", "u2", "i3", none, none⟩] 1
        (newKeys ⟨[⟨0, "p1", "Shampoo", "Pets", "desc", "B", "u", ["i"]⟩], [], 1⟩
          [⟨"p2", "Soap", "Home", "d2", "C", "u2", "i3", none, none⟩]))
      (buildVariantsSpec [⟨"p2", "Soap", "Home", "d2", "C", "u2", "i3", none, none⟩] 1
        (newKeys ⟨[⟨0, "p1", "Shampoo", "Pets", "desc", "B", "u", ["i"]⟩], [], 1⟩
          [⟨"p2", "Soap", "Home", "d2", "C", "u2", "i3", none, none⟩]))
      2 (by decide) (by decide)).2.1,
   ((ingest_docstore_replace_or_untouched
      [⟨"p2", "Soap", "Home", "d2", "C", "u2", "i3", none, none⟩]
      ⟨[⟨0, "p1", "Shampoo", "Pets", "desc", "B", "u", ["i"]⟩], [], 1⟩
      [⟨"old doc", 0, "n", "b", "p", "u", "i"⟩] .nofail).2
      (buildProducts [⟨"p2", "Soap", "Home", "d2", "C", "u2", "i3", none, none⟩] 1
        (newKeys ⟨[⟨0, "p1", "Shampoo", "Pets", "desc", "B", "u", ["i"]⟩], [], 1⟩
          [⟨"p2", "Soap", "Home", "d2", "C", "u2", "i3", none, none⟩]))
      (buildVariantsSpec [⟨"p2", "Soap", "Home", "d2", "C", "u2", "i3", none, none⟩] 1
        (newKeys ⟨[⟨0, "p1", "Shampoo", "Pets", "desc", "B", "u", ["i"]⟩], [], 1⟩
          [⟨"p2", "Soap", "Home", "d2", "C", "u2", "i3", none, none⟩]))
      2 (by decide) (by decide)).2.2⟩

/-- C8 counterexample: in the canonical product-creating ingestion
(`ingest_data_in_background`), a row whose `product_name` and
`description` cells are missing — `astype(str)` renders them as the
string "nan" — is NOT excluded: a product named "nan" is created and
committed, contradicting "every row missing the required name or
description field is excluded (dropped)". -/
theorem ingest_missing_name_not_dropped_counterexample :
    (ingest_data_in_background true
        (some [⟨"p1", "nan", "nan", "nan", "nan", "nan", "nan", none, none⟩]) .nofail
        ⟨[], [], 1⟩ []).newCount = 1 ∧
    (ingest_data_in_background true
        (some [⟨"p1", "nan", "nan", "nan", "nan", "nan", "nan", none, none⟩]) .nofail
        ⟨[], [], 1⟩ []).rel.products.map (fun p => p.name) = ["nan"] := by decide

/-- C8 (amended): the drop-and-fill step lives in the legacy
document-conversion path (`process_csv_to_documents`): a row missing
`product_name` or `description` is excluded there without aborting the
batch (removing it from the source leaves the output unchanged), and a
kept row with a missing brand gets the sentinel "Unknown" in the
Document built from it; the relational ingestion path applies no such
filtering (see the counterexample). -/
theorem process_csv_drops_and_fills :
    (∀ (jl : String → Option PyVal) (pre post : List LegacyRow) (r : LegacyRow),
      (r.product_name = none ∨ r.description = none) →
      process_csv_to_documents jl (some (pre ++ r :: post)) =
        process_csv_to_documents jl (some (pre ++ post))) ∧
    (∀ (jl : String → Option PyVal) (rows : List LegacyRow) (r : LegacyRow),
      r ∈ rows → legacyKeep r = true → r.brand = none →
      (mkLegacyDoc jl (legacyFill r)).brand = "Unknown" ∧
      mkLegacyDoc jl (legacyFill r) ∈ process_csv_to_documents jl (some rows)) := by
  constructor
  · intro jl pre post r h
    have hk : legacyKeep r = false := by
      unfold legacyKeep
      rcases h with h | h <;> rw [h] <;> simp
    simp [process_csv_to_documents, List.filter_append, List.filter_cons, hk]
  · intro jl rows r hr hk hb
    constructor
    · simp [mkLegacyDoc, legacyFill, hb]
    · simp only [process_csv_to_documents]
      refine List.mem_map_of_mem _ (List.mem_map_of_mem _ ?_)
      rw [List.mem_filter]
      exact ⟨hr, hk⟩

/-- C8 witness: a row with a missing name disappears from the legacy
conversion without disturbing its neighbour; a kept brandless row's
document carries brand "Unknown". -/
theorem process_csv_drops_and_fills_witness :
    process_csv_to_documents (fun _ => none)
        (some ([] ++ ⟨none, some "D", some "B", none, none, none, none⟩ ::
          [⟨some "N", some "D", none, none, none, none, none⟩])) =
      process_csv_to_documents (fun _ => none)
        (some ([] ++ [⟨some "N", some "D", none, none, none, none, none⟩])) ∧
    (mkLegacyDoc (fun _ => none)
        (legacyFill ⟨some "N", some "D", none, none, none, none, none⟩)).brand =
      "Unknown" ∧
    mkLegacyDoc (fun _ => none)
        (legacyFill ⟨some "N", some "D", none, none, none, none, none⟩) ∈
      process_csv_to_documents (fun _ => none)
        (some [⟨some "N", some "D", none, none, none, none, none⟩]) :=
  ⟨process_csv_drops_and_fills.1 (fun _ => none) []
      [⟨some "N", some "D", none, none, none, none, none⟩]
      ⟨none, some "D", some "B", none, none, none, none⟩ (Or.inl rfl),
   (process_csv_drops_and_fills.2 (fun _ => none)
      [⟨some "N", some "D", none, none, none, none, none⟩]
      ⟨some "N", some "D", none, none, none, none, none⟩
      (by decide) rfl rfl).1,
   (process_csv_drops_and_fills.2 (fun _ => none)
      [⟨some "N", some "D", none, none, none, none, none⟩]
      ⟨some "N", some "D", none, none, none, none, none⟩
      (by decide) rfl rfl).2⟩

/-- C1: for every question, `classify_intent` returns a label and never
raises (the embedding is total over all exception branches); whenever
the LLM is unavailable, the invocation raises, or the cleaned output does
not parse to a structured result carrying an "intent" field, the returned
label is the default "product_query". -/
theorem classify_intent_fallback_default (llmReady : Bool)
    (invokeChain : String → LLMOutcome) (jloads : String → Option PyVal)
    (question : String)
    (h : llmReady = false ∨ invokeChain question = .raise ∨
      (∀ out, invokeChain question = .ok out → noIntentField (jloads (cleanedOutput out)))) :
    classify_intent llmReady invokeChain jloads question = .strv "product_query" := by
  unfold classify_intent
  rcases h with h | h | h
  · subst h; rfl
  · cases llmReady
    · rfl
    · rw [h]; rfl
  · cases llmReady
    · rfl
    · cases hc : invokeChain question with
      | raise => rfl
      | ok out =>
          have h2 := h out hc
          cases hj : jloads (cleanedOutput out) with
          | none => simp [hj]
          | some v =>
              cases v with
              | dict fields =>
                  have h3 := h2 fields hj
                  simp [hj, pyDictGet, h3]
              | strv s => simp [hj]
              | list es => simp [hj]
              | other => simp [hj]

/-- C1 witness: the LLM-unavailable branch at a concrete question. -/
theorem classify_intent_fallback_default_witness :
    classify_intent false (fun _ => .raise) (fun _ => none) "any shampoo?" =
      .strv "product_query" :=
  classify_intent_fallback_default false (fun _ => .raise) (fun _ => none)
    "any shampoo?" (Or.inl rfl)

/-- C2: with the vector store or the LLM uninitialized, `get_rag_answer`
returns the fixed degraded answer and the debug context naming the cause,
and the session memory store is returned completely unchanged — no turn
appended and no session entry created. -/
theorem get_rag_answer_degraded_no_mutation (storeReady llmReady : Bool)
    (deps : RagDeps) (store : MemStore) (session_id question : String) (k : Nat)
    (h : storeReady = false ∨ llmReady = false) :
    get_rag_answer storeReady llmReady deps store session_id question k =
      (⟨"I'm sorry, but my knowledge base is currently unavailable.",
        "Error: Not initialized."⟩, store) := by
  unfold get_rag_answer
  rcases h with h | h
  · subst h; rfl
  · subst h; cases storeReady <;> rfl

/-- C2 witness: uninitialized store, concrete session and question; the
memory (here holding one prior session) comes back untouched. -/
theorem get_rag_answer_degraded_no_mutation_witness :
    get_rag_answer false true ⟨fun _ _ => [], fun _ _ => "", fun _ _ _ => ""⟩
        [("other@x.com", [⟨"hi", "hello"⟩])] "a@b.com" "dog shampoo?" 3 =
      (⟨"I'm sorry, but my knowledge base is currently unavailable.",
        "Error: Not initialized."⟩, [("other@x.com", [⟨"hi", "hello"⟩])]) :=
  get_rag_answer_degraded_no_mutation false true
    ⟨fun _ _ => [], fun _ _ => "", fun _ _ _ => ""⟩
    [("other@x.com", [⟨"hi", "hello"⟩])] "a@b.com" "dog shampoo?" 3 (Or.inl rfl)

/-- C4: the session history used for prompting is bounded to the last
`windowK = 10` turns; appending `windowK + 1` turns (starting from the
lazily created empty memory) stores all of them, but the loaded window
is exactly the tail — length `windowK`, with the oldest turn evicted
first. -/
theorem session_history_window_fifo (sid : String) (ts : List Turn)
    (h : ts.length = windowK + 1) :
    (ts.foldl (fun st t => save_context st sid t)
        (get_or_create_memory_for_session [] sid).1).lookup sid = some ts ∧
    loadWindow windowK ts = ts.tail ∧
    (loadWindow windowK ts).length = windowK ∧
    (∀ turns : List Turn, (loadWindow windowK turns).length ≤ windowK) := by
  refine ⟨?_, ?_, ?_, ?_⟩
  · have h0 : (get_or_create_memory_for_session [] sid).1 = [(sid, [])] := rfl
    rw [h0, save_context_foldl_single]
    simp [mem_lookup_cons]
  · unfold loadWindow
    rw [h]
    simp [windowK]
  · unfold loadWindow
    rw [List.length_drop, h]
    rfl
  · intro turns
    unfold loadWindow
    rw [List.length_drop]
    omega

/-- C4 witness: eleven concrete turns in one session. -/
theorem session_history_window_fifo_witness :
    ((List.replicate 11 (⟨"q", "a"⟩ : Turn)).foldl
        (fun st t => save_context st "a@b.com" t)
        (get_or_create_memory_for_session [] "a@b.com").1).lookup "a@b.com" =
      some (List.replicate 11 ⟨"q", "a"⟩) ∧
    loadWindow windowK (List.replicate 11 ⟨"q", "a"⟩) =
      (List.replicate 11 (⟨"q", "a"⟩ : Turn)).tail ∧
    (loadWindow windowK (List.replicate 11 (⟨"q", "a"⟩ : Turn))).length = windowK ∧
    (∀ turns : List Turn, (loadWindow windowK turns).length ≤ windowK) :=
  session_history_window_fifo "a@b.com" (List.replicate 11 ⟨"q", "a"⟩) (by rfl)

/-- C3 counterexample: a fully successful call — store and LLM
initialized, retrieval and generation both answering — whose generation
capability produces the empty string.  The call still appends its turn
and returns normally, but the returned answer is empty, refuting the
claim's "the returned answer is a non-empty string". -/
theorem get_rag_answer_empty_answer_counterexample :
    (get_rag_answer true true ⟨fun _ _ => [], fun _ _ => "", fun _ _ _ => ""⟩
        [] "a@b.com" "I'm looking for a dog shampoo" 3).1.answer = "" ∧
    ¬ ((get_rag_answer true true ⟨fun _ _ => [], fun _ _ => "", fun _ _ _ => ""⟩
        [] "a@b.com" "I'm looking for a dog shampoo" 3).1.answer ≠ "") :=
  ⟨rfl, fun h => h rfl⟩

/-- C3 (amended): for every call with store and LLM initialized, exactly
one turn `(question, answer)` is appended to the session's memory and no
other session is touched; the appended and returned answer is exactly
the output of the generation capability (run on the pre-append history,
so the append happens only after generation completes — in particular
the answer is non-empty exactly when the generation output is); and the
returned debug context contains the page content of every retrieved
document. -/
theorem get_rag_answer_success_effects (deps : RagDeps) (store : MemStore)
    (session_id question : String) (k : Nat) :
    let s₁ := get_or_create_memory_for_session store session_id
    let hist := loadWindow windowK s₁.2
    let query := if hist.isEmpty then question else deps.contextualize hist question
    let context := deps.retrieve k query
    let answer := deps.generate context hist question
    let r := get_rag_answer true true deps store session_id question k
    r.1.answer = answer ∧
    r.2.lookup session_id = some (s₁.2 ++ [⟨question, answer⟩]) ∧
    (∀ other, other ≠ session_id → r.2.lookup other = store.lookup other) ∧
    (∀ d ∈ context, strHas r.1.prompt d.page_content) := by
  intro s₁ hist query context answer r
  have hr2 : r.2 = save_context s₁.1 session_id ⟨question, answer⟩ := rfl
  refine ⟨rfl, ?_, ?_, ?_⟩
  · rw [hr2, lookup_save_context_self, goc_lookup_self]
    rfl
  · intro other ho
    rw [hr2, lookup_save_context_other _ _ _ _ ho, goc_lookup_other _ _ _ ho]
  · intro d hd
    have h1 : strHas (joinSep "\n---\n" (context.map (·.page_content))) d.page_content :=
      strHas_of_mem_joinSep _ _ _ (List.mem_map_of_mem _ hd)
    exact strHas_append_left _ _ _ h1

/-- C3 witness: concrete session, question and capabilities. -/
theorem get_rag_answer_success_effects_witness :
    (get_rag_answer true true
        ⟨fun _ _ => [⟨"dog shampoo doc one", 1, "n", "b", "p", "u", "i"⟩],
         fun _ q => q, fun _ _ _ => "Yes, we have dog shampoo."⟩
        [] "a@b.com" "I'm looking for a dog shampoo" 3).1.answer =
      "Yes, we have dog shampoo." ∧
    (get_rag_answer true true
        ⟨fun _ _ => [⟨"dog shampoo doc one", 1, "n", "b", "p", "u", "i"⟩],
         fun _ q => q, fun _ _ _ => "Yes, we have dog shampoo."⟩
        [] "a@b.com" "I'm looking for a dog shampoo" 3).2.lookup "a@b.com" =
      some [⟨"I'm looking for a dog shampoo", "Yes, we have dog shampoo."⟩] ∧
    strHas (get_rag_answer true true
        ⟨fun _ _ => [⟨"dog shampoo doc one", 1, "n", "b", "p", "u", "i"⟩],
         fun _ q => q, fun _ _ _ => "Yes, we have dog shampoo."⟩
        [] "a@b.com" "I'm looking for a dog shampoo" 3).1.prompt "dog shampoo doc one" :=
  ⟨(get_rag_answer_success_effects
      ⟨fun _ _ => [⟨"dog shampoo doc one", 1, "n", "b", "p", "u", "i"⟩],
       fun _ q => q, fun _ _ _ => "Yes, we have dog shampoo."⟩
      [] "a@b.com" "I'm looking for a dog shampoo" 3).1,
   (get_rag_answer_success_effects
      ⟨fun _ _ => [⟨"dog shampoo doc one", 1, "n", "b", "p", "u", "i"⟩],
       fun _ q => q, fun _ _ _ => "Yes, we have dog shampoo."⟩
      [] "a@b.com" "I'm looking for a dog shampoo" 3).2.1,
   (get_rag_answer_success_effects
      ⟨fun _ _ => [⟨"dog shampoo doc one", 1, "n", "b", "p", "u", "i"⟩],
       fun _ q => q, fun _ _ _ => "Yes, we have dog shampoo."⟩
      [] "a@b.com" "I'm looking for a dog shampoo" 3).2.2.2
      ⟨"dog shampoo doc one", 1, "n", "b", "p", "u", "i"⟩ (by decide)⟩

/-- C9: whenever the intent classifier returns one of the non-default
labels (greeting, thanks, goodbye, identity), the chat route answers with
the fixed canned response for that intent, never invokes the RAG chain
(so no retrieval and no answer generation), and leaves the session memory
store untouched — no entry created, no turn appended. -/
theorem chitchat_short_circuit_no_effects (storeReady llmReady : Bool)
    (invokeChain : String → LLMOutcome) (jloads : String → Option PyVal)
    (deps : RagDeps) (store : MemStore) (session_id question : String) (k : Nat)
    (i : String) (hi : i ∈ ["greeting", "thanks", "goodbye", "identity"])
    (hc : classify_intent llmReady invokeChain jloads question = .strv i) :
    ∃ canned, CHITCHAT_RESPONSES.lookup i = some canned ∧
      chat_endpoint storeReady llmReady invokeChain jloads deps store session_id question k =
        (.ok ⟨canned, none⟩, store, false) := by
  have step : ∀ c, CHITCHAT_RESPONSES.lookup i = some c →
      chat_endpoint storeReady llmReady invokeChain jloads deps store session_id question k =
        (.ok ⟨c, none⟩, store, false) := by
    intro c hcan
    unfold chat_endpoint
    rw [hc]
    simp [hcan]
  fin_cases hi
  · exact ⟨_, rfl, step _ rfl⟩
  · exact ⟨_, rfl, step _ rfl⟩
  · exact ⟨_, rfl, step _ rfl⟩
  · exact ⟨_, rfl, step _ rfl⟩

/-- C9 witness: a classifier that labels the question "greeting"; the
endpoint returns the canned greeting and an unchanged memory store. -/
theorem chitchat_short_circuit_no_effects_witness :
    ∃ canned, CHITCHAT_RESPONSES.lookup "greeting" = some canned ∧
      chat_endpoint true true (fun _ => .ok "x")
          (fun _ => some (.dict [("intent", .strv "greeting")]))
          ⟨fun _ _ => [], fun _ _ => "", fun _ _ _ => ""⟩
          [("a@b.com", [⟨"q", "a"⟩])] "a@b.com" "hello" 3 =
        (.ok ⟨canned, none⟩, [("a@b.com", [⟨"q", "a"⟩])], false) :=
  chitchat_short_circuit_no_effects true true (fun _ => .ok "x")
    (fun _ => some (.dict [("intent", .strv "greeting")]))
    ⟨fun _ _ => [], fun _ _ => "", fun _ _ _ => ""⟩
    [("a@b.com", [⟨"q", "a"⟩])] "a@b.com" "hello" 3 "greeting"
    (by decide) rfl
